import Mathlib

/-!
# Verification of the Enigma-Pivot-Table hypercube extraction engine

Shallow embedding of `src/pivot-extractor.js` (class `PivotExtractor`):
the paginated extraction loop `extractPivotData` and the record formatter
`formatPivotData`.  The remote engine is modelled as a fetch oracle: a
function from the call number, the RPC method used (`getHyperCubePivotData`
vs `getHyperCubeData`) and the requested window to the JS outcome of the
call (a page list, or a thrown error carrying `code` / `parameter`
classification hints).  The row payload is a type parameter `R`: the loop
never inspects row contents, only moves them, so claims about row identity
instantiate `R := Nat` (original row index) and formatter claims
instantiate `R := List Cell`.

The loop state carries, besides the three source-level mutable variables
(`allData`, `currentRow`, `pagesProcessed`), an instrumentation field
`calls` recording each remote call `(method, window)` in issue order; it
never influences control flow and exists only so that trace properties
(which call shape a retry used, what heights were requested) can be
stated.  The possibly-nonterminating `while` loop is embedded with
explicit fuel; fuel exhaustion is the distinguished `outOfFuel` result.
-/

/-- A JS value used in the dynamic `===` comparisons on `pageError.code`
(compared both against the numbers 6001/6002 and against the string
`'LOCERR_GENERIC_ABORTED'`). -/
inductive JsVal where
  | num (n : Int)
  | str (s : String)
  | undef
deriving DecidableEq, Repr

/-- The error object caught from a failed page fetch: carries `code` and
`parameter` classification hints. -/
structure PageError where
  code : JsVal
  parameter : Option String
deriving DecidableEq, Repr

/-- One fetch window: `{qTop, qLeft, qHeight, qWidth}` as built at
`pivot-extractor.js` lines 79-84 / 87-92 / 122-127 / 145-150. -/
structure Window where
  qTop : Nat
  qLeft : Nat
  qHeight : Nat
  qWidth : Nat
deriving DecidableEq, Repr

/-- Which engine RPC a fetch goes through: `getHyperCubePivotData`
(pivot) or `getHyperCubeData` (straight). -/
inductive FetchMethod where
  | pivot
  | straight
deriving DecidableEq, Repr

/-- One element of the `pageData` array: an object that may or may not
carry a `qMatrix` field (a possibly empty list of rows). -/
structure DataPage (R : Type) where
  qMatrix : Option (List R)
deriving DecidableEq, Repr

/-- The outcome of one remote call: either the resolved `pageData` value
(`none` models a null/undefined response, `some pages` the page array) or
a thrown error. -/
abbrev FetchOutcome (R : Type) := Except PageError (Option (List (DataPage R)))

/-- The remote engine as an oracle: answer to the `i`-th call of the
extraction, given the method and the window requested.  Indexing by the
call number models a stateful/nondeterministic server with a pure
function. -/
abbrev Fetch (R : Type) := Nat → FetchMethod → Window → FetchOutcome R

/-- Dimension / measure descriptor; the extractor reads only
`qFallbackTitle` from `qDimensionInfo` / `qMeasureInfo` entries. -/
structure FieldInfo where
  qFallbackTitle : String
deriving DecidableEq, Repr

/-- `layout.qHyperCube.qSize`. -/
structure QSize where
  qcy : Nat
  qcx : Nat
deriving DecidableEq, Repr

/-- The part of `layout.qHyperCube` the extractor reads. -/
structure HyperCube where
  qDimensionInfo : List FieldInfo
  qMeasureInfo : List FieldInfo
  qSize : QSize
  qMode : String
deriving DecidableEq, Repr

/-- The recognized fields of the `options` argument of
`extractPivotData`, with the source defaults (lines 43-49).
`columnCount = none` models the JS `null` default. -/
structure Options where
  pageSize : Nat := 1000
  maxPages : Nat := 10
  startRow : Nat := 0
  startCol : Nat := 0
  columnCount : Option Nat := none
deriving DecidableEq, Repr

/-- JS `a || b` on a possibly-null number: `null` and `0` are falsy
(`columnCount || hypercube.qSize.qcx`, line 58). -/
def jsOrNat (a : Option Nat) (b : Nat) : Nat :=
  match a with
  | some n => if n = 0 then b else n
  | none => b

/-- The loop configuration fixed for one extraction, read off the layout
and options before the `while` loop starts (lines 54-64). -/
structure LoopCfg where
  totalRows : Nat
  totalCols : Nat
  pageSize : Nat
  maxPages : Nat
  startCol : Nat
  qMode : String
deriving DecidableEq, Repr

/-- The mutable state of the `while` loop: the three source variables
`allData`, `currentRow`, `pagesProcessed`, plus the `calls`
instrumentation trace (one entry per remote call, in order; its length is
the oracle index of the next call). -/
structure LoopState (R : Type) where
  allData : List R
  currentRow : Nat
  pagesProcessed : Nat
  calls : List (FetchMethod × Window)
deriving DecidableEq, Repr

/-- The truthiness test of line 95 / 129 / 152:
`pageData && pageData.length > 0 && pageData[0].qMatrix`.  Note that an
empty `qMatrix` array is truthy in JS, so a present-but-empty matrix
passes this test. -/
def pageOk {R : Type} (pd : Option (List (DataPage R))) : Bool :=
  match pd with
  | some (p :: _) => p.qMatrix.isSome
  | _ => false

/-- `pageData[0].qMatrix` when present, else the empty list (only used
after `pageOk` holds). -/
def matrixOf {R : Type} (pd : Option (List (DataPage R))) : List R :=
  match pd with
  | some (p :: _) => p.qMatrix.getD []
  | _ => []

/-- Method selection of line 77: pivot RPC iff
`hypercube.qMode === 'EQ_DATA_MODE_PIVOT'`, else straight RPC. -/
def attemptMethod (cfg : LoopCfg) : FetchMethod :=
  if cfg.qMode = "EQ_DATA_MODE_PIVOT" then FetchMethod.pivot else FetchMethod.straight

/-- `rowsToFetch = Math.min(pageSize, totalRows - currentRow)`
(lines 68-69). -/
def rowsToFetch (cfg : LoopCfg) (s : LoopState R) : Nat :=
  min cfg.pageSize (cfg.totalRows - s.currentRow)

/-- The window of the primary attempt of an iteration (lines 79-84 /
87-92): top = cursor, height = `rowsToFetch`. -/
def attemptWindow (cfg : LoopCfg) (s : LoopState R) : Window :=
  { qTop := s.currentRow, qLeft := cfg.startCol
    qHeight := rowsToFetch cfg s, qWidth := cfg.totalCols }

/-- The halved-height retry window used by the capacity-fault branch
(lines 119-127): height = `Math.max(10, Math.floor(rowsToFetch / 2))`. -/
def shrinkWindow (cfg : LoopCfg) (s : LoopState R) : Window :=
  { qTop := s.currentRow, qLeft := cfg.startCol
    qHeight := max 10 (rowsToFetch cfg s / 2), qWidth := cfg.totalCols }

/-- Line 116: `pageError.code === 6001 || pageError.parameter === 'Page(s) too large'`. -/
def isCapacityErr (e : PageError) : Prop :=
  e.code = JsVal.num 6001 ∨ e.parameter = some "Page(s) too large"

/-- Line 141: `pageError.code === 6002 || pageError.parameter === 'Not in pivot mode'`. -/
def isModeErr (e : PageError) : Prop :=
  e.code = JsVal.num 6002 ∨ e.parameter = some "Not in pivot mode"

/-- Line 164: `pageError.code === 'LOCERR_GENERIC_ABORTED'`. -/
def isAbortedErr (e : PageError) : Prop :=
  e.code = JsVal.str "LOCERR_GENERIC_ABORTED"

instance (e : PageError) : Decidable (isCapacityErr e) := by
  unfold isCapacityErr; infer_instance

instance (e : PageError) : Decidable (isModeErr e) := by
  unfold isModeErr; infer_instance

instance (e : PageError) : Decidable (isAbortedErr e) := by
  unfold isAbortedErr; infer_instance

/-- The outcome of one iteration of the `while` body: either loop again
with an updated state (falling off the end of the body, an explicit
`continue`, or the fall-through after a retry returned no matrix), or
leave the loop (`break`). -/
inductive StepRes (R : Type) where
  | next (s : LoopState R)
  | brk (s : LoopState R)
deriving DecidableEq, Repr

/-- The state carried by either outcome. -/
def StepRes.state {R : Type} : StepRes R → LoopState R
  | .next s => s
  | .brk s => s

/-- One iteration of the `while` body of `extractPivotData`
(lines 67-172), assuming the loop condition already held.

* primary fetch through the mode-selected RPC (lines 77-93);
* on a truthy matrix: append it, `currentRow += rowsToFetch` (the
  requested height), `pagesProcessed++` (lines 95-105); on a falsy
  `pageData`/matrix: `break` (lines 99-102);
* on a thrown error (lines 112-171), in the source's `else if` order:
  * capacity (6001 / 'Page(s) too large'): one retry via the straight
    RPC at the halved height; on a truthy matrix append it and advance
    the cursor by the *returned* length then `continue`; on a falsy
    matrix the branch falls through, ending the body with no state
    change; on a thrown retry error, `break`;
  * mode mismatch (6002 / 'Not in pivot mode'): one retry via the
    straight RPC at the same window; on a truthy matrix append it and
    advance the cursor by the *requested* height then `continue`; falsy
    matrix falls through; thrown retry error `break`s;
  * 'LOCERR_GENERIC_ABORTED': `continue`, retrying the same page with
    nothing changed;
  * anything else: `break`. -/
def pageAttempt (fetch : Fetch R) (cfg : LoopCfg) (s : LoopState R) : StepRes R :=
  let w := attemptWindow cfg s
  let m := attemptMethod cfg
  match fetch s.calls.length m w with
  | .ok pd =>
      if pageOk pd then
        .next { allData := s.allData ++ matrixOf pd
                currentRow := s.currentRow + rowsToFetch cfg s
                pagesProcessed := s.pagesProcessed + 1
                calls := s.calls ++ [(m, w)] }
      else
        .brk { s with calls := s.calls ++ [(m, w)] }
  | .error e =>
      if isCapacityErr e then
        let w2 := shrinkWindow cfg s
        match fetch (s.calls.length + 1) FetchMethod.straight w2 with
        | .ok pd2 =>
            if pageOk pd2 then
              .next { allData := s.allData ++ matrixOf pd2
                      currentRow := s.currentRow + (matrixOf pd2).length
                      pagesProcessed := s.pagesProcessed + 1
                      calls := s.calls ++ [(m, w), (FetchMethod.straight, w2)] }
            else
              .next { s with calls := s.calls ++ [(m, w), (FetchMethod.straight, w2)] }
        | .error _ =>
            .brk { s with calls := s.calls ++ [(m, w), (FetchMethod.straight, w2)] }
      else if isModeErr e then
        match fetch (s.calls.length + 1) FetchMethod.straight w with
        | .ok pd2 =>
            if pageOk pd2 then
              .next { allData := s.allData ++ matrixOf pd2
                      currentRow := s.currentRow + rowsToFetch cfg s
                      pagesProcessed := s.pagesProcessed + 1
                      calls := s.calls ++ [(m, w), (FetchMethod.straight, w)] }
            else
              .next { s with calls := s.calls ++ [(m, w), (FetchMethod.straight, w)] }
        | .error _ =>
            .brk { s with calls := s.calls ++ [(m, w), (FetchMethod.straight, w)] }
      else if isAbortedErr e then
        .next { s with calls := s.calls ++ [(m, w)] }
      else
        .brk { s with calls := s.calls ++ [(m, w)] }

/-- Result of running the loop under a fuel bound: `done` when the loop
exited (condition false, or `break`), `outOfFuel` when the bound ran out
first. -/
inductive LoopResult (R : Type) where
  | done (s : LoopState R)
  | outOfFuel (s : LoopState R)
deriving DecidableEq, Repr

/-- The state carried by either loop result. -/
def LoopResult.state {R : Type} : LoopResult R → LoopState R
  | .done s => s
  | .outOfFuel s => s

/-- Whether the loop actually exited. -/
def LoopResult.isDone {R : Type} : LoopResult R → Bool
  | .done _ => true
  | .outOfFuel _ => false

/-- The `while (currentRow < totalRows && pagesProcessed < maxPages)`
loop of lines 67-172, with explicit fuel. -/
def extractLoop (fetch : Fetch R) (cfg : LoopCfg) : Nat → LoopState R → LoopResult R
  | 0, s => .outOfFuel s
  | fuel + 1, s =>
      if s.currentRow < cfg.totalRows ∧ s.pagesProcessed < cfg.maxPages then
        match pageAttempt fetch cfg s with
        | .next s' => extractLoop fetch cfg fuel s'
        | .brk s' => .done s'
      else
        .done s

/-- The metadata object literal returned at lines 178-186. -/
structure Metadata where
  dimensions : List FieldInfo
  measures : List FieldInfo
  totalRows : Nat
  totalColumns : Nat
  extractedRows : Nat
  pageSize : Nat
  pagesProcessed : Nat
deriving DecidableEq, Repr

/-- The property keys of the metadata object literal (lines 178-186), in
source order.  The returned metadata carries exactly these fields. -/
def metadataFieldNames : List String :=
  ["dimensions", "measures", "totalRows", "totalColumns",
   "extractedRows", "pageSize", "pagesProcessed"]

/-- The value returned by `extractPivotData` (lines 176-187). -/
structure ExtractionResult (R : Type) where
  data : List R
  metadata : Metadata
deriving DecidableEq, Repr

/-- The loop configuration read off the layout and the options at lines
54-64: `totalRows = qSize.qcy`, `totalCols = columnCount || qSize.qcx`. -/
def extractCfg (hc : HyperCube) (opts : Options) : LoopCfg :=
  { totalRows := hc.qSize.qcy, totalCols := jsOrNat opts.columnCount hc.qSize.qcx
    pageSize := opts.pageSize, maxPages := opts.maxPages
    startCol := opts.startCol, qMode := hc.qMode }

/-- The loop state at lines 62-64: empty data, `currentRow = startRow`,
no pages processed, no calls made yet. -/
def initState (R : Type) (opts : Options) : LoopState R :=
  { allData := [], currentRow := opts.startRow, pagesProcessed := 0, calls := [] }

/-- `extractPivotData(pivotObject, options)` (lines 41-193): reads the
layout sizes, runs the paging loop from `currentRow = startRow`,
`pagesProcessed = 0`, and packages `allData` with the metadata literal.
`none` means the loop had not terminated within `fuel` iterations. -/
def extractPivotData (fetch : Fetch R) (hc : HyperCube) (opts : Options)
    (fuel : Nat) : Option (ExtractionResult R) :=
  match extractLoop fetch (extractCfg hc opts) fuel (initState R opts) with
  | .done s =>
      some { data := s.allData
             metadata :=
               { dimensions := hc.qDimensionInfo, measures := hc.qMeasureInfo
                 totalRows := (extractCfg hc opts).totalRows
                 totalColumns := (extractCfg hc opts).totalCols
                 extractedRows := s.allData.length, pageSize := opts.pageSize
                 pagesProcessed := s.pagesProcessed } }
  | .outOfFuel _ => none

/-! ## Record formatter (`formatPivotData`, lines 232-288) -/

/-- One retrieved cell as the formatter consumes it: `qText`, `qNum`,
`qState`.  The numeric payload is carried opaquely (no arithmetic is ever
performed on it), so it is modelled as `Option Int` (`none` = JS null). -/
structure Cell where
  qText : String
  qNum : Option Int
  qState : String
deriving DecidableEq, Repr

/-- One header object pushed at lines 240-244 / 249-253. -/
structure Header where
  name : String
  type : String
  index : Nat
deriving DecidableEq, Repr

/-- The `{text, number, state}` value stored per field (lines 263-267). -/
structure FCell where
  text : String
  number : Option Int
  state : String
deriving DecidableEq, Repr

/-- JS object property assignment `obj[k] = v`: overwrite in place when
the key exists, else append (keys keep first-insertion order). -/
def jsSet (obj : List (String × FCell)) (k : String) (v : FCell) :
    List (String × FCell) :=
  if obj.any (fun p => p.1 = k) then
    obj.map (fun p => if p.1 = k then (k, v) else p)
  else
    obj ++ [(k, v)]

/-- The body of the `headers.push({...})` calls of lines 240-244 /
249-253: append one header of column type `t` with
`index: headers.length` at push time. -/
def pushHeader (t : String) (hs : List Header) (x : FieldInfo) : List Header :=
  hs ++ [{ name := x.qFallbackTitle, type := t, index := hs.length }]

/-- Header construction of lines 236-254: push one header per dimension
descriptor (type `dimension`), then one per measure descriptor (type
`measure`). -/
def buildHeaders (dims : List FieldInfo) (measures : List FieldInfo) :
    List Header :=
  let hs := dims.foldl (pushHeader "dimension") []
  measures.foldl (pushHeader "measure") hs

/-- The `row.forEach((cell, cellIndex) => ...)` body of lines 260-269:
zip cells to headers by position; a cell with no matching header is
dropped. -/
def buildRowData (headers : List Header) (row : List Cell) :
    List (String × FCell) :=
  row.enum.foldl
    (fun obj ci =>
      match headers[ci.1]? with
      | some h => jsSet obj h.name ⟨ci.2.qText, ci.2.qNum, ci.2.qState⟩
      | none => obj) []

/-- One formatted row `{index, data}` (lines 271-274). -/
structure FormattedRow where
  index : Nat
  data : List (String × FCell)
deriving DecidableEq, Repr

/-- The `summary` object literal (lines 281-286). -/
structure Summary where
  totalRows : Nat
  totalColumns : Nat
  dimensions : Nat
  measures : Nat
deriving DecidableEq, Repr

/-- The value returned by `formatPivotData` (lines 277-287). -/
structure FormattedData where
  headers : List Header
  rows : List FormattedRow
  metadata : Metadata
  summary : Summary
deriving DecidableEq, Repr

/-- `formatPivotData(extractedData)` (lines 232-288). -/
def formatPivotData (extractedData : ExtractionResult (List Cell)) :
    FormattedData :=
  let headers := buildHeaders extractedData.metadata.dimensions
    extractedData.metadata.measures
  let formattedRows := extractedData.data.enum.map
    (fun ri => { index := ri.1, data := buildRowData headers ri.2 : FormattedRow })
  { headers := headers
    rows := formattedRows
    metadata := extractedData.metadata
    summary :=
      { totalRows := formattedRows.length
        totalColumns := headers.length
        dimensions := extractedData.metadata.dimensions.length
        measures := extractedData.metadata.measures.length } }

/-! ## Helper lemmas and concrete fetch stubs -/

/-- `⌈a / b⌉` on naturals: the page count the spec's completeness
property refers to. -/
def ceilDiv (a b : Nat) : Nat := (a + b - 1) / b

theorem ceilDiv_zero_left (b : Nat) (hb : 0 < b) : ceilDiv 0 b = 0 := by
  unfold ceilDiv
  exact Nat.div_eq_of_lt (by omega)

theorem ceilDiv_pos (a b : Nat) (hb : 0 < b) (ha : 0 < a) : 0 < ceilDiv a b := by
  unfold ceilDiv
  have : 1 ≤ (a + b - 1) / b := (Nat.one_le_div_iff hb).mpr (by omega)
  omega

theorem ceilDiv_step (a b : Nat) (hb : 0 < b) (ha : 0 < a) :
    ceilDiv a b = ceilDiv (a - min b a) b + 1 := by
  unfold ceilDiv
  rcases le_or_lt a b with hab | hab
  · have hmin : min b a = a := by omega
    rw [hmin, Nat.sub_self]
    have h1 : a + b - 1 = (a - 1) + b := by omega
    have h2 : 0 + b - 1 = b - 1 := by omega
    rw [h1, h2, Nat.add_div_right _ hb, Nat.div_eq_of_lt (by omega),
        Nat.div_eq_of_lt (by omega)]
  · have hmin : min b a = b := by omega
    rw [hmin]
    have h1 : a + b - 1 = ((a - b) + b - 1) + b := by omega
    rw [h1, Nat.add_div_right _ hb]

theorem range'_split (s m n : Nat) :
    List.range' s m ++ List.range' (s + m) n = List.range' s (m + n) := by
  have h := List.range'_append s m n 1
  rw [Nat.add_comm n m] at h
  simpa using h

/-- The initial loop state with default `startRow = 0`, over `Nat` row
identifiers. -/
def s0N : LoopState Nat :=
  { allData := [], currentRow := 0, pagesProcessed := 0, calls := [] }

/-- A fault-free fetch stub returning exactly the requested window of
original-row indices. -/
def fetchFull : Fetch Nat := fun _ _ w =>
  .ok (some [⟨some (List.range' w.qTop w.qHeight)⟩])

/-- A fault-free fetch stub that truncates only at the data boundary:
the returned rows are the consecutive indices from the window top, of
length `min height (total - top)`. -/
def fetchExact (total : Nat) : Fetch Nat := fun _ _ w =>
  .ok (some [⟨some (List.range' w.qTop (min w.qHeight (total - w.qTop)))⟩])

/-! ## C1 — cursor advance on a successful page -/

/-- Stub for C1/C2: the first call succeeds but the server truncates,
returning only rows `[0, 1, 2]` of the 5 requested; every later call
returns the full requested window. -/
def fetchTrunc : Fetch Nat := fun i _ w =>
  if i = 0 then .ok (some [⟨some [0, 1, 2]⟩])
  else .ok (some [⟨some (List.range' w.qTop w.qHeight)⟩])

/-- Configuration for the truncation scenario: 10 total rows, 2 columns,
page size 5, straight mode. -/
def cfgTrunc : LoopCfg :=
  { totalRows := 10, totalCols := 2, pageSize := 5, maxPages := 10
    startCol := 0, qMode := "EQ_DATA_MODE_STRAIGHT" }

/-- C1 counterexample: the first call requests height 5 and the server
returns only 3 rows, yet the main success path executes
`currentRow += rowsToFetch` (line 104), advancing the cursor by the
requested height 5, not by the 3 rows actually returned. -/
theorem C1_counterexample :
    (pageAttempt fetchTrunc cfgTrunc s0N).state.allData.length = 3 ∧
    (pageAttempt fetchTrunc cfgTrunc s0N).state.currentRow = 5 ∧
    ¬ (pageAttempt fetchTrunc cfgTrunc s0N).state.currentRow
        = s0N.currentRow + (pageAttempt fetchTrunc cfgTrunc s0N).state.allData.length := by
  decide

/-! ## Branch behavior of one loop iteration -/

/-- Main success path (lines 95-105): truthy matrix appended, cursor
advanced by the *requested* height, success counter bumped. -/
theorem pageAttempt_ok_true {R : Type} (fetch : Fetch R) (cfg : LoopCfg)
    (s : LoopState R) (pd : Option (List (DataPage R)))
    (hf : fetch s.calls.length (attemptMethod cfg) (attemptWindow cfg s) = .ok pd)
    (hok : pageOk pd = true) :
    pageAttempt fetch cfg s
      = StepRes.next { allData := s.allData ++ matrixOf pd
                       currentRow := s.currentRow + rowsToFetch cfg s
                       pagesProcessed := s.pagesProcessed + 1
                       calls := s.calls ++ [(attemptMethod cfg, attemptWindow cfg s)] } := by
  unfold pageAttempt
  dsimp only
  rw [hf]
  simp [hok]

/-- Falsy `pageData`/matrix on the primary fetch (lines 99-102):
`break`, state otherwise untouched. -/
theorem pageAttempt_ok_false {R : Type} (fetch : Fetch R) (cfg : LoopCfg)
    (s : LoopState R) (pd : Option (List (DataPage R)))
    (hf : fetch s.calls.length (attemptMethod cfg) (attemptWindow cfg s) = .ok pd)
    (hok : pageOk pd = false) :
    pageAttempt fetch cfg s
      = StepRes.brk { s with calls := s.calls ++ [(attemptMethod cfg, attemptWindow cfg s)] } := by
  unfold pageAttempt
  dsimp only
  rw [hf]
  simp [hok]

/-- Capacity-fault branch, retry succeeds with a truthy matrix
(lines 116-136): the retry goes through the straight RPC at the halved
window and the cursor advances by the *returned* length. -/
theorem pageAttempt_capacity_retry_ok {R : Type} (fetch : Fetch R) (cfg : LoopCfg)
    (s : LoopState R) (e : PageError) (pd2 : Option (List (DataPage R)))
    (hf : fetch s.calls.length (attemptMethod cfg) (attemptWindow cfg s) = .error e)
    (hcap : isCapacityErr e)
    (hr : fetch (s.calls.length + 1) FetchMethod.straight (shrinkWindow cfg s) = .ok pd2)
    (hok : pageOk pd2 = true) :
    pageAttempt fetch cfg s
      = StepRes.next { allData := s.allData ++ matrixOf pd2
                       currentRow := s.currentRow + (matrixOf pd2).length
                       pagesProcessed := s.pagesProcessed + 1
                       calls := s.calls ++ [(attemptMethod cfg, attemptWindow cfg s),
                                            (FetchMethod.straight, shrinkWindow cfg s)] } := by
  unfold pageAttempt
  dsimp only
  rw [hf]
  simp only [if_pos hcap]
  rw [hr]
  simp [hok]

/-- Capacity-fault branch, retry resolves but with a falsy matrix
(line 129 false): the `if` chain falls through, the body ends, and the
loop re-iterates with the extraction state unchanged. -/
theorem pageAttempt_capacity_retry_empty {R : Type} (fetch : Fetch R) (cfg : LoopCfg)
    (s : LoopState R) (e : PageError) (pd2 : Option (List (DataPage R)))
    (hf : fetch s.calls.length (attemptMethod cfg) (attemptWindow cfg s) = .error e)
    (hcap : isCapacityErr e)
    (hr : fetch (s.calls.length + 1) FetchMethod.straight (shrinkWindow cfg s) = .ok pd2)
    (hok : pageOk pd2 = false) :
    pageAttempt fetch cfg s
      = StepRes.next { s with calls := s.calls ++ [(attemptMethod cfg, attemptWindow cfg s),
                                                   (FetchMethod.straight, shrinkWindow cfg s)] } := by
  unfold pageAttempt
  dsimp only
  rw [hf]
  simp only [if_pos hcap]
  rw [hr]
  simp [hok]

/-- Capacity-fault branch, retry throws (lines 137-140): `break`. -/
theorem pageAttempt_capacity_retry_err {R : Type} (fetch : Fetch R) (cfg : LoopCfg)
    (s : LoopState R) (e e2 : PageError)
    (hf : fetch s.calls.length (attemptMethod cfg) (attemptWindow cfg s) = .error e)
    (hcap : isCapacityErr e)
    (hr : fetch (s.calls.length + 1) FetchMethod.straight (shrinkWindow cfg s) = .error e2) :
    pageAttempt fetch cfg s
      = StepRes.brk { s with calls := s.calls ++ [(attemptMethod cfg, attemptWindow cfg s),
                                                  (FetchMethod.straight, shrinkWindow cfg s)] } := by
  unfold pageAttempt
  dsimp only
  rw [hf]
  simp only [if_pos hcap]
  rw [hr]

/-- Mode-mismatch branch, straight retry succeeds with a truthy matrix
(lines 141-159): same window re-requested through the straight RPC,
cursor advanced by the *requested* height. -/
theorem pageAttempt_mode_retry_ok {R : Type} (fetch : Fetch R) (cfg : LoopCfg)
    (s : LoopState R) (e : PageError) (pd2 : Option (List (DataPage R)))
    (hf : fetch s.calls.length (attemptMethod cfg) (attemptWindow cfg s) = .error e)
    (hcap : ¬ isCapacityErr e) (hmode : isModeErr e)
    (hr : fetch (s.calls.length + 1) FetchMethod.straight (attemptWindow cfg s) = .ok pd2)
    (hok : pageOk pd2 = true) :
    pageAttempt fetch cfg s
      = StepRes.next { allData := s.allData ++ matrixOf pd2
                       currentRow := s.currentRow + rowsToFetch cfg s
                       pagesProcessed := s.pagesProcessed + 1
                       calls := s.calls ++ [(attemptMethod cfg, attemptWindow cfg s),
                                            (FetchMethod.straight, attemptWindow cfg s)] } := by
  unfold pageAttempt
  dsimp only
  rw [hf]
  simp only [if_neg hcap, if_pos hmode]
  rw [hr]
  simp [hok]

/-- Mode-mismatch branch, straight retry resolves with a falsy matrix:
fall-through, loop re-iterates unchanged. -/
theorem pageAttempt_mode_retry_empty {R : Type} (fetch : Fetch R) (cfg : LoopCfg)
    (s : LoopState R) (e : PageError) (pd2 : Option (List (DataPage R)))
    (hf : fetch s.calls.length (attemptMethod cfg) (attemptWindow cfg s) = .error e)
    (hcap : ¬ isCapacityErr e) (hmode : isModeErr e)
    (hr : fetch (s.calls.length + 1) FetchMethod.straight (attemptWindow cfg s) = .ok pd2)
    (hok : pageOk pd2 = false) :
    pageAttempt fetch cfg s
      = StepRes.next { s with calls := s.calls ++ [(attemptMethod cfg, attemptWindow cfg s),
                                                   (FetchMethod.straight, attemptWindow cfg s)] } := by
  unfold pageAttempt
  dsimp only
  rw [hf]
  simp only [if_neg hcap, if_pos hmode]
  rw [hr]
  simp [hok]

/-- Mode-mismatch branch, straight retry throws (lines 160-163):
`break`. -/
theorem pageAttempt_mode_retry_err {R : Type} (fetch : Fetch R) (cfg : LoopCfg)
    (s : LoopState R) (e e2 : PageError)
    (hf : fetch s.calls.length (attemptMethod cfg) (attemptWindow cfg s) = .error e)
    (hcap : ¬ isCapacityErr e) (hmode : isModeErr e)
    (hr : fetch (s.calls.length + 1) FetchMethod.straight (attemptWindow cfg s) = .error e2) :
    pageAttempt fetch cfg s
      = StepRes.brk { s with calls := s.calls ++ [(attemptMethod cfg, attemptWindow cfg s),
                                                  (FetchMethod.straight, attemptWindow cfg s)] } := by
  unfold pageAttempt
  dsimp only
  rw [hf]
  simp only [if_neg hcap, if_pos hmode]
  rw [hr]

/-- Aborted-request branch (lines 164-166): `continue` with nothing
about the extraction state changed. -/
theorem pageAttempt_aborted {R : Type} (fetch : Fetch R) (cfg : LoopCfg)
    (s : LoopState R) (e : PageError)
    (hf : fetch s.calls.length (attemptMethod cfg) (attemptWindow cfg s) = .error e)
    (hcap : ¬ isCapacityErr e) (hmode : ¬ isModeErr e) (hab : isAbortedErr e) :
    pageAttempt fetch cfg s
      = StepRes.next { s with calls := s.calls ++ [(attemptMethod cfg, attemptWindow cfg s)] } := by
  unfold pageAttempt
  dsimp only
  rw [hf]
  simp only [if_neg hcap, if_neg hmode, if_pos hab]

/-- Fatal branch (lines 167-170): any other error `break`s. -/
theorem pageAttempt_fatal {R : Type} (fetch : Fetch R) (cfg : LoopCfg)
    (s : LoopState R) (e : PageError)
    (hf : fetch s.calls.length (attemptMethod cfg) (attemptWindow cfg s) = .error e)
    (hcap : ¬ isCapacityErr e) (hmode : ¬ isModeErr e) (hab : ¬ isAbortedErr e) :
    pageAttempt fetch cfg s
      = StepRes.brk { s with calls := s.calls ++ [(attemptMethod cfg, attemptWindow cfg s)] } := by
  unfold pageAttempt
  dsimp only
  rw [hf]
  simp only [if_neg hcap, if_neg hmode, if_neg hab]

/-- C1 amended: on a successful primary page fetch the controller
advances the cursor by the *requested* window height `rowsToFetch`
(line 104), whatever number of rows the server actually returned; only
the capacity-shrink retry path advances by the returned length. -/
theorem C1_success_advances_by_requested_height {R : Type} (fetch : Fetch R)
    (cfg : LoopCfg) (s : LoopState R) (pd : Option (List (DataPage R)))
    (hf : fetch s.calls.length (attemptMethod cfg) (attemptWindow cfg s) = .ok pd)
    (hok : pageOk pd = true) :
    (pageAttempt fetch cfg s).state.currentRow = s.currentRow + rowsToFetch cfg s ∧
    (pageAttempt fetch cfg s).state.allData = s.allData ++ matrixOf pd := by
  rw [pageAttempt_ok_true fetch cfg s pd hf hok]
  exact ⟨rfl, rfl⟩

/-- Witness for C1: the truncation scenario — 5 rows requested, 3
returned, cursor moved to 5. -/
theorem C1_success_advances_witness :
    (pageAttempt fetchTrunc cfgTrunc s0N).state.currentRow
        = s0N.currentRow + rowsToFetch cfgTrunc s0N ∧
    (pageAttempt fetchTrunc cfgTrunc s0N).state.allData
        = s0N.allData ++ matrixOf (some [⟨some [0, 1, 2]⟩]) :=
  C1_success_advances_by_requested_height fetchTrunc cfgTrunc s0N
    (some [⟨some [0, 1, 2]⟩]) rfl rfl

/-! ## C9 — response carrying no rows -/

/-- Stub whose every call resolves with a present but empty `qMatrix`. -/
def fetchEmptyMatrix : Fetch Nat := fun _ _ _ => .ok (some [⟨some []⟩])

/-- Stub whose every call resolves with a null `pageData` (no matrix at
all). -/
def fetchNullPage : Fetch Nat := fun _ _ _ => .ok none

/-- C9 counterexample: a successful fetch carrying an *empty* matrix
does not terminate the loop.  The truthiness test of line 95 passes for
an empty `qMatrix` array, so the body appends zero rows, advances the
cursor by the requested height and keeps paging: after two such
responses on a 10-row cube the loop has processed 2 pages instead of
stopping at the first empty response. -/
theorem C9_counterexample :
    pageAttempt fetchEmptyMatrix cfgTrunc s0N
      = StepRes.next { allData := [], currentRow := 5, pagesProcessed := 1
                       calls := [(FetchMethod.straight, ⟨0, 0, 5, 2⟩)] } ∧
    (extractLoop fetchEmptyMatrix cfgTrunc 3 s0N).isDone = true ∧
    (extractLoop fetchEmptyMatrix cfgTrunc 3 s0N).state.pagesProcessed = 2 := by
  decide

/-- C9 amended: only a falsy response — null `pageData`, an empty page
array, or a page without a `qMatrix` field — terminates the paging loop,
returning the rows assembled so far; a present-but-empty matrix is
treated as a successful page (zero rows appended, cursor advanced by the
requested height). -/
theorem C9_no_matrix_terminates_loop {R : Type} (fetch : Fetch R) (cfg : LoopCfg)
    (s : LoopState R) (pd : Option (List (DataPage R))) (fuel : Nat)
    (hf : fetch s.calls.length (attemptMethod cfg) (attemptWindow cfg s) = .ok pd)
    (hok : pageOk pd = false) :
    pageAttempt fetch cfg s
      = StepRes.brk { s with calls := s.calls ++ [(attemptMethod cfg, attemptWindow cfg s)] } ∧
    (extractLoop fetch cfg (fuel + 1) s).isDone = true ∧
    (extractLoop fetch cfg (fuel + 1) s).state.allData = s.allData := by
  have hb := pageAttempt_ok_false fetch cfg s pd hf hok
  refine ⟨hb, ?_, ?_⟩ <;>
  · simp only [extractLoop]
    split
    · rw [hb]
      rfl
    · rfl

/-- Witness for C9: a null `pageData` on the first call breaks the loop
immediately with no rows assembled. -/
theorem C9_no_matrix_terminates_witness :
    pageAttempt fetchNullPage cfgTrunc s0N
      = StepRes.brk { s0N with
          calls := s0N.calls ++ [(attemptMethod cfgTrunc, attemptWindow cfgTrunc s0N)] } ∧
    (extractLoop fetchNullPage cfgTrunc (0 + 1) s0N).isDone = true ∧
    (extractLoop fetchNullPage cfgTrunc (0 + 1) s0N).state.allData = s0N.allData :=
  C9_no_matrix_terminates_loop fetchNullPage cfgTrunc s0N none 0 rfl rfl

/-! ## C10 — capacity retries go through the straight-table RPC -/

/-- Stub for C10/C5: the first call fails with capacity error 6001;
every later call returns the full requested window. -/
def fetchCap : Fetch Nat := fun i _ w =>
  if i = 0 then .error { code := JsVal.num 6001, parameter := none }
  else .ok (some [⟨some (List.range' w.qTop w.qHeight)⟩])

/-- Configuration for the capacity scenario: 40 total rows, 2 columns,
page size 20, straight mode. -/
def cfgCap : LoopCfg :=
  { totalRows := 40, totalCols := 2, pageSize := 20, maxPages := 10
    startCol := 0, qMode := "EQ_DATA_MODE_STRAIGHT" }

/-- C10: whenever the primary fetch of an iteration fails with a
capacity fault (code 6001 or parameter `Page(s) too large`), the
iteration issues exactly one more call, through the straight-table RPC
`getHyperCubeData` at the halved window — whatever `attemptMethod cfg`
(PIVOT or STRAIGHT) the primary call used, and whatever the retry then
returns. -/
theorem C10_capacity_retry_uses_straight {R : Type} (fetch : Fetch R)
    (cfg : LoopCfg) (s : LoopState R) (e : PageError)
    (hf : fetch s.calls.length (attemptMethod cfg) (attemptWindow cfg s) = .error e)
    (hcap : isCapacityErr e) :
    (pageAttempt fetch cfg s).state.calls
      = s.calls ++ [(attemptMethod cfg, attemptWindow cfg s),
                    (FetchMethod.straight, shrinkWindow cfg s)] := by
  cases hr : fetch (s.calls.length + 1) FetchMethod.straight (shrinkWindow cfg s) with
  | ok pd2 =>
      cases hok : pageOk pd2 with
      | true =>
          rw [pageAttempt_capacity_retry_ok fetch cfg s e pd2 hf hcap hr hok]
          rfl
      | false =>
          rw [pageAttempt_capacity_retry_empty fetch cfg s e pd2 hf hcap hr hok]
          rfl
  | error e2 =>
      rw [pageAttempt_capacity_retry_err fetch cfg s e e2 hf hcap hr]
      rfl

/-- Witness for C10: concrete capacity fault on a straight-mode cube. -/
theorem C10_capacity_retry_uses_straight_witness :
    (pageAttempt fetchCap cfgCap s0N).state.calls
      = s0N.calls ++ [(attemptMethod cfgCap, attemptWindow cfgCap s0N),
                      (FetchMethod.straight, shrinkWindow cfgCap s0N)] :=
  C10_capacity_retry_uses_straight fetchCap cfgCap s0N
    { code := JsVal.num 6001, parameter := none } rfl (Or.inl rfl)

/-! ## C5 — the capacity shrink is not sticky -/

/-- C5 counterexample: on a 40-row cube with page size 20, the first
window (height 20) draws a capacity fault, the retry is issued at the
halved height 10 and succeeds — and the very next window is requested at
height 20 again, exceeding the shrunk value. -/
theorem C5_counterexample :
    (extractLoop fetchCap cfgCap 2 s0N).state.calls
      = [(FetchMethod.straight, ⟨0, 0, 20, 2⟩),
         (FetchMethod.straight, ⟨0, 0, 10, 2⟩),
         (FetchMethod.straight, ⟨10, 0, 20, 2⟩)] := by
  decide

/-- The requested height of a call depends only on the configured page
size and the call's own top row: the primary shape
`min pageSize (totalRows - top)` or its halved capacity-retry shape.
No component of the state remembers an earlier shrink. -/
def callShapeOk (cfg : LoopCfg) (c : FetchMethod × Window) : Prop :=
  c.2.qHeight = min cfg.pageSize (cfg.totalRows - c.2.qTop) ∨
  c.2.qHeight = max 10 (min cfg.pageSize (cfg.totalRows - c.2.qTop) / 2)

/-- Every call appended by one iteration has one of the two
history-free shapes. -/
theorem pageAttempt_calls_cases {R : Type} (fetch : Fetch R) (cfg : LoopCfg)
    (s : LoopState R) :
    (pageAttempt fetch cfg s).state.calls
        = s.calls ++ [(attemptMethod cfg, attemptWindow cfg s)] ∨
    (pageAttempt fetch cfg s).state.calls
        = s.calls ++ [(attemptMethod cfg, attemptWindow cfg s),
                      (FetchMethod.straight, shrinkWindow cfg s)] ∨
    (pageAttempt fetch cfg s).state.calls
        = s.calls ++ [(attemptMethod cfg, attemptWindow cfg s),
                      (FetchMethod.straight, attemptWindow cfg s)] := by
  unfold pageAttempt
  dsimp only
  cases fetch s.calls.length (attemptMethod cfg) (attemptWindow cfg s) with
  | ok pd => cases hok : pageOk pd <;> simp [hok, StepRes.state]
  | error e =>
      by_cases hcap : isCapacityErr e
      · simp only [if_pos hcap]
        cases fetch (s.calls.length + 1) FetchMethod.straight (shrinkWindow cfg s) with
        | ok pd2 => cases hok : pageOk pd2 <;> simp [hok, StepRes.state]
        | error e2 => simp [StepRes.state]
      · by_cases hmode : isModeErr e
        · simp only [if_neg hcap, if_pos hmode]
          cases fetch (s.calls.length + 1) FetchMethod.straight (attemptWindow cfg s) with
          | ok pd2 => cases hok : pageOk pd2 <;> simp [hok, StepRes.state]
          | error e2 => simp [StepRes.state]
        · by_cases hab : isAbortedErr e <;>
            simp [if_neg hcap, if_neg hmode, hab, StepRes.state]

/-- C5 amended: the halved height applies only to the immediate retry of
the failing window; no shrunk page size is remembered.  Every window the
extraction ever requests has a history-free height, `min pageSize
(totalRows - top)` or its halved retry value, so after a shrink the next
page is again requested at the full configured page size (the spec's
sticky-shrink monotonicity does not hold, see `C5_counterexample`). -/
theorem C5_window_heights_history_free {R : Type} (fetch : Fetch R) (cfg : LoopCfg)
    (fuel : Nat) (s : LoopState R) (h : ∀ c ∈ s.calls, callShapeOk cfg c) :
    ∀ c ∈ (extractLoop fetch cfg fuel s).state.calls, callShapeOk cfg c := by
  induction fuel generalizing s with
  | zero => exact h
  | succ n ih =>
      rw [extractLoop]
      split
      · have hcases := pageAttempt_calls_cases fetch cfg s
        cases hpa : pageAttempt fetch cfg s with
        | next s' =>
            rw [hpa] at hcases
            apply ih
            intro c hc
            rcases hcases with h1 | h1 | h1 <;>
              rw [show s'.calls = _ from h1] at hc <;>
              rcases List.mem_append.mp hc with hc | hc <;>
              first
                | exact h c hc
                | (simp only [List.mem_cons, List.mem_singleton, List.not_mem_nil,
                      or_false] at hc
                   rcases hc with rfl | rfl <;>
                     first
                       | exact Or.inl rfl
                       | exact Or.inr rfl)
        | brk s' =>
            rw [hpa] at hcases
            intro c hc
            simp only [LoopResult.state] at hc
            rcases hcases with h1 | h1 | h1 <;>
              rw [show s'.calls = _ from h1] at hc <;>
              rcases List.mem_append.mp hc with hc | hc <;>
              first
                | exact h c hc
                | (simp only [List.mem_cons, List.mem_singleton, List.not_mem_nil,
                      or_false] at hc
                   rcases hc with rfl | rfl <;>
                     first
                       | exact Or.inl rfl
                       | exact Or.inr rfl)
      · exact h

/-- Witness for C5: the height-20 window issued right after the
successful height-10 shrink retry still has a history-free shape. -/
theorem C5_window_heights_history_free_witness :
    callShapeOk cfgCap (FetchMethod.straight, ⟨10, 0, 20, 2⟩) :=
  C5_window_heights_history_free fetchCap cfgCap 2 s0N
    (by intro c hc; simp [s0N] at hc)
    (FetchMethod.straight, ⟨10, 0, 20, 2⟩) (by decide)

/-! ## C4 — mode-mismatch handling -/

/-- Stub for C4: every pivot-RPC call reports `Not in pivot mode`
(code 6002); every straight-RPC call succeeds with the full window. -/
def fetchModeSwitch : Fetch Nat := fun _ m w =>
  match m with
  | .pivot => .error { code := JsVal.num 6002, parameter := none }
  | .straight => .ok (some [⟨some (List.range' w.qTop w.qHeight)⟩])

/-- Stub for C4 witness: every call of either RPC reports a mode
mismatch. -/
def fetchModeErrAlways : Fetch Nat := fun _ _ _ =>
  .error { code := JsVal.num 6002, parameter := none }

/-- A 2-row, pivot-mode cube extracted 1 row per page. -/
def cfgPivot2 : LoopCfg :=
  { totalRows := 2, totalCols := 1, pageSize := 1, maxPages := 10
    startCol := 0, qMode := "EQ_DATA_MODE_PIVOT" }

/-- C4 counterexample: with a cube in pivot mode whose pivot RPC always
faults 6002 while the straight RPC succeeds, the extraction performs a
mode-switch retry on *every* page — here twice (calls 1 and 3 are pivot
attempts, calls 2 and 4 the straight switches) — and the second
mode-incompatibility fault does not abort: the extraction runs to
completion with 2 pages processed.  There is no once-per-extraction
switch flag. -/
theorem C4_counterexample :
    (extractLoop fetchModeSwitch cfgPivot2 3 s0N).state.calls.map Prod.fst
      = [FetchMethod.pivot, FetchMethod.straight,
         FetchMethod.pivot, FetchMethod.straight] ∧
    (extractLoop fetchModeSwitch cfgPivot2 3 s0N).isDone = true ∧
    (extractLoop fetchModeSwitch cfgPivot2 3 s0N).state.pagesProcessed = 2 := by
  decide

/-- C4 amended: the switch is once per *failing window*, not once
globally.  Within the handling of one window whose primary fetch reports
a mode mismatch, exactly one switched (straight-RPC) attempt is issued;
if that switched attempt also fails — as when every fetch reports a mode
mismatch — the extraction stops there, keeping the rows assembled so
far.  But after a successful switched page, a later mode-mismatch fault
triggers a new switch instead of aborting (`C4_counterexample`). -/
theorem C4_mode_switch_once_per_window {R : Type} (fetch : Fetch R) (cfg : LoopCfg)
    (s : LoopState R) (e e2 : PageError) (fuel : Nat)
    (hf : fetch s.calls.length (attemptMethod cfg) (attemptWindow cfg s) = .error e)
    (hcap : ¬ isCapacityErr e) (hmode : isModeErr e)
    (hr : fetch (s.calls.length + 1) FetchMethod.straight (attemptWindow cfg s) = .error e2) :
    pageAttempt fetch cfg s
      = StepRes.brk { s with calls := s.calls ++ [(attemptMethod cfg, attemptWindow cfg s),
                                                  (FetchMethod.straight, attemptWindow cfg s)] } ∧
    (extractLoop fetch cfg (fuel + 1) s).isDone = true ∧
    (extractLoop fetch cfg (fuel + 1) s).state.allData = s.allData := by
  have hb := pageAttempt_mode_retry_err fetch cfg s e e2 hf hcap hmode hr
  refine ⟨hb, ?_, ?_⟩ <;>
  · simp only [extractLoop]
    split
    · rw [hb]
      rfl
    · rfl

/-- Witness for C4: a fetch that always reports mode mismatch makes the
very first window issue one pivot call, one switched straight call, then
stop with nothing assembled. -/
theorem C4_mode_switch_once_per_window_witness :
    pageAttempt fetchModeErrAlways cfgPivot2 s0N
      = StepRes.brk { s0N with calls := s0N.calls ++
          [(attemptMethod cfgPivot2, attemptWindow cfgPivot2 s0N),
           (FetchMethod.straight, attemptWindow cfgPivot2 s0N)] } ∧
    (extractLoop fetchModeErrAlways cfgPivot2 (0 + 1) s0N).isDone = true ∧
    (extractLoop fetchModeErrAlways cfgPivot2 (0 + 1) s0N).state.allData = s0N.allData :=
  C4_mode_switch_once_per_window fetchModeErrAlways cfgPivot2 s0N
    { code := JsVal.num 6002, parameter := none }
    { code := JsVal.num 6002, parameter := none } 0
    rfl (by decide) (Or.inl rfl) rfl

/-! ## C6 — repeated aborted faults and the safety cap -/

/-- Stub for C6: every call throws `LOCERR_GENERIC_ABORTED`, the
retryable fault of line 164. -/
def fetchAbortedAlways : Fetch Nat := fun _ _ _ =>
  .error { code := JsVal.str "LOCERR_GENERIC_ABORTED", parameter := none }

/-- A 5-row cube with the default page size and page cap. -/
def cfgAborted : LoopCfg :=
  { totalRows := 5, totalCols := 1, pageSize := 1000, maxPages := 10
    startCol := 0, qMode := "EQ_DATA_MODE_STRAIGHT" }

/-- C6: the loop does *not* terminate under a fetch that always fails
with the retryable aborted fault.  The `LOCERR_GENERIC_ABORTED` branch
(lines 164-166) executes `continue` without touching `currentRow` or
`pagesProcessed` — the source has no attempts counter at all — so the
`while` condition never changes and no amount of fuel reaches the end of
the loop.  This defeats the `maxPages` "safety limit" the source's own
comment (line 45) promises. -/
theorem C6_aborted_fault_never_terminates :
    ∀ (fuel : Nat) (s : LoopState Nat),
      s.currentRow < cfgAborted.totalRows → s.pagesProcessed < cfgAborted.maxPages →
      (extractLoop fetchAbortedAlways cfgAborted fuel s).isDone = false := by
  intro fuel
  induction fuel with
  | zero => intro s _ _; rfl
  | succ n ih =>
      intro s h1 h2
      have hb : pageAttempt fetchAbortedAlways cfgAborted s
          = StepRes.next { s with calls := s.calls ++
              [(attemptMethod cfgAborted, attemptWindow cfgAborted s)] } :=
        pageAttempt_aborted fetchAbortedAlways cfgAborted s
          { code := JsVal.str "LOCERR_GENERIC_ABORTED", parameter := none }
          rfl (by decide) (by decide) rfl
      simp only [extractLoop]
      rw [if_pos (⟨h1, h2⟩ : _ ∧ _), hb]
      exact ih _ h1 h2

/-- Witness for C6: from the initial state, even 1000 iterations of fuel
never reach loop exit. -/
theorem C6_aborted_fault_never_terminates_witness :
    s0N.currentRow < cfgAborted.totalRows ∧
    s0N.pagesProcessed < cfgAborted.maxPages ∧
    (extractLoop fetchAbortedAlways cfgAborted 1000 s0N).isDone = false :=
  ⟨by decide, by decide,
   C6_aborted_fault_never_terminates 1000 s0N (by decide) (by decide)⟩

/-! ## C7 — fatal fault after successful pages -/

/-- Stub for C7: the first two calls succeed with full windows; every
later call throws an unclassified (fatal) error with code 9999. -/
def fetchFatalPage3 : Fetch Nat := fun i _ w =>
  if i < 2 then .ok (some [⟨some (List.range' w.qTop w.qHeight)⟩])
  else .error { code := JsVal.num 9999, parameter := none }

/-- A 10-row straight cube with one dimension and one measure. -/
def hcFatal : HyperCube :=
  { qDimensionInfo := [⟨"Dim1"⟩], qMeasureInfo := [⟨"Meas1"⟩]
    qSize := { qcy := 10, qcx := 2 }, qMode := "EQ_DATA_MODE_STRAIGHT" }

/-- Options requesting 3 rows per page (other fields default). -/
def optsFatal : Options := { pageSize := 3 }

/-- The loop configuration `extractPivotData` derives from `hcFatal` and
`optsFatal`. -/
def cfgFatal : LoopCfg :=
  { totalRows := 10, totalCols := 2, pageSize := 3, maxPages := 10
    startCol := 0, qMode := "EQ_DATA_MODE_STRAIGHT" }

/-- The loop state after the two successful pages of the C7 scenario. -/
def sAfterTwoPages : LoopState Nat :=
  { allData := List.range' 0 6, currentRow := 6, pagesProcessed := 2
    calls := [(FetchMethod.straight, ⟨0, 0, 3, 2⟩), (FetchMethod.straight, ⟨3, 0, 3, 2⟩)] }

/-- C7 counterexample: a fatal fault on page 3 does return the 6 rows of
the first two pages as a partial result with `extractedRows = 6` — but
the returned metadata object carries no `terminationReason` field at
all (its keys are exactly `metadataFieldNames`), so no `ABORTED` reason
is reported, contrary to the claim. -/
theorem C7_counterexample :
    extractPivotData fetchFatalPage3 hcFatal optsFatal 4
      = some { data := [0, 1, 2, 3, 4, 5]
               metadata := { dimensions := [⟨"Dim1"⟩], measures := [⟨"Meas1"⟩]
                             totalRows := 10, totalColumns := 2, extractedRows := 6
                             pageSize := 3, pagesProcessed := 2 } } ∧
    "terminationReason" ∉ metadataFieldNames := by
  decide

/-- C7 amended: an unclassified (fatal) fault stops the loop at once and
the rows and success count assembled so far are preserved in the
returned state; the caller must detect the truncation by comparing
`extractedRows` against `totalRows`, since the metadata carries no
termination reason. -/
theorem C7_fatal_fault_keeps_partial_rows {R : Type} (fetch : Fetch R) (cfg : LoopCfg)
    (s : LoopState R) (e : PageError) (fuel : Nat)
    (hf : fetch s.calls.length (attemptMethod cfg) (attemptWindow cfg s) = .error e)
    (hcap : ¬ isCapacityErr e) (hmode : ¬ isModeErr e) (hab : ¬ isAbortedErr e) :
    (extractLoop fetch cfg (fuel + 1) s).isDone = true ∧
    (extractLoop fetch cfg (fuel + 1) s).state.allData = s.allData ∧
    (extractLoop fetch cfg (fuel + 1) s).state.pagesProcessed = s.pagesProcessed := by
  have hb := pageAttempt_fatal fetch cfg s e hf hcap hmode hab
  refine ⟨?_, ?_, ?_⟩ <;>
  · simp only [extractLoop]
    split
    · rw [hb]
      rfl
    · rfl

/-- Witness for C7: the fatal 9999 fault arriving after two successful
pages of the concrete scenario. -/
theorem C7_fatal_fault_keeps_partial_rows_witness :
    (extractLoop fetchFatalPage3 cfgFatal (0 + 1) sAfterTwoPages).isDone = true ∧
    (extractLoop fetchFatalPage3 cfgFatal (0 + 1) sAfterTwoPages).state.allData
        = sAfterTwoPages.allData ∧
    (extractLoop fetchFatalPage3 cfgFatal (0 + 1) sAfterTwoPages).state.pagesProcessed
        = sAfterTwoPages.pagesProcessed :=
  C7_fatal_fault_keeps_partial_rows fetchFatalPage3 cfgFatal sAfterTwoPages
    { code := JsVal.num 9999, parameter := none } 0
    rfl (by decide) (by decide) (by decide)

/-! ## C2 — order of the assembled rows -/

/-- Server-side consistency assumption on the oracle, instantiated with
`R := Nat` so a row is its original row index: every *successful* fetch
returns exactly the consecutive block of original rows starting at the
window top, truncated only at the data boundary (length
`min height (total - top)`).  Failure outcomes are unconstrained. -/
def returnsConsecutiveRows (total : Nat) (fetch : Fetch Nat) : Prop :=
  ∀ i m w pd, fetch i m w = .ok pd → pageOk pd = true →
    matrixOf pd = List.range' w.qTop (min w.qHeight (total - w.qTop))

/-- The C2 invariant: the assembled data is exactly the consecutive
rows starting at `r0`, and the cursor sits right past them. -/
def rowInvariant (r0 : Nat) (s : LoopState Nat) : Prop :=
  s.allData = List.range' r0 s.allData.length ∧
  s.currentRow = r0 + s.allData.length

/-- Appending a consecutive block that starts at the cursor keeps the
assembled list consecutive and lands the cursor right past it. -/
theorem rowInvariant_append (r0 : Nat) (data m : List Nat) (cur : Nat)
    (hd : data = List.range' r0 data.length) (hc : cur = r0 + data.length)
    (hm : m = List.range' cur m.length) :
    data ++ m = List.range' r0 (data ++ m).length ∧
    cur + m.length = r0 + (data ++ m).length := by
  constructor
  · rw [List.length_append]
    conv_lhs => rw [hd, hm, hc]
    exact range'_split r0 data.length m.length
  · rw [List.length_append]
    omega

/-- One iteration preserves the C2 invariant, provided the oracle only
returns consecutive blocks. -/
theorem pageAttempt_rowInvariant (fetch : Fetch Nat) (cfg : LoopCfg) (r0 : Nat)
    (s : LoopState Nat) (hfetch : returnsConsecutiveRows cfg.totalRows fetch)
    (hinv : rowInvariant r0 s) :
    rowInvariant r0 (pageAttempt fetch cfg s).state := by
  obtain ⟨hd, hc⟩ := hinv
  have hrtf : rowsToFetch cfg s ≤ cfg.totalRows - s.currentRow := Nat.min_le_right _ _
  cases hfe : fetch s.calls.length (attemptMethod cfg) (attemptWindow cfg s) with
  | ok pd =>
      cases hok : pageOk pd with
      | true =>
          rw [pageAttempt_ok_true fetch cfg s pd hfe hok]
          have hm : matrixOf pd = List.range' s.currentRow (rowsToFetch cfg s) := by
            have h2 := hfetch _ _ _ pd hfe hok
            rw [h2]
            show List.range' s.currentRow
                (min (rowsToFetch cfg s) (cfg.totalRows - s.currentRow)) = _
            rw [Nat.min_eq_left hrtf]
          have hlen : (matrixOf pd).length = rowsToFetch cfg s := by
            rw [hm, List.length_range']
          obtain ⟨ha, hb⟩ := rowInvariant_append r0 s.allData (matrixOf pd)
            s.currentRow hd hc (by rw [hlen]; exact hm)
          exact ⟨ha, by rw [← hlen]; exact hb⟩
      | false =>
          rw [pageAttempt_ok_false fetch cfg s pd hfe hok]
          exact ⟨hd, hc⟩
  | error e =>
      by_cases hcap : isCapacityErr e
      · cases hr : fetch (s.calls.length + 1) FetchMethod.straight (shrinkWindow cfg s) with
        | ok pd2 =>
            cases hok : pageOk pd2 with
            | true =>
                rw [pageAttempt_capacity_retry_ok fetch cfg s e pd2 hfe hcap hr hok]
                have h2 := hfetch _ _ _ pd2 hr hok
                have hlen : (matrixOf pd2).length
                    = min (shrinkWindow cfg s).qHeight
                        (cfg.totalRows - s.currentRow) := by
                  rw [h2, List.length_range']
                  rfl
                have hm : matrixOf pd2 = List.range' s.currentRow ((matrixOf pd2).length) := by
                  rw [hlen]
                  exact h2
                exact rowInvariant_append r0 s.allData (matrixOf pd2)
                  s.currentRow hd hc hm
            | false =>
                rw [pageAttempt_capacity_retry_empty fetch cfg s e pd2 hfe hcap hr hok]
                exact ⟨hd, hc⟩
        | error e2 =>
            rw [pageAttempt_capacity_retry_err fetch cfg s e e2 hfe hcap hr]
            exact ⟨hd, hc⟩
      · by_cases hmode : isModeErr e
        · cases hr : fetch (s.calls.length + 1) FetchMethod.straight (attemptWindow cfg s) with
          | ok pd2 =>
              cases hok : pageOk pd2 with
              | true =>
                  rw [pageAttempt_mode_retry_ok fetch cfg s e pd2 hfe hcap hmode hr hok]
                  have hm : matrixOf pd2 = List.range' s.currentRow (rowsToFetch cfg s) := by
                    have h2 := hfetch _ _ _ pd2 hr hok
                    rw [h2]
                    show List.range' s.currentRow
                        (min (rowsToFetch cfg s) (cfg.totalRows - s.currentRow)) = _
                    rw [Nat.min_eq_left hrtf]
                  have hlen : (matrixOf pd2).length = rowsToFetch cfg s := by
                    rw [hm, List.length_range']
                  obtain ⟨ha, hb⟩ := rowInvariant_append r0 s.allData (matrixOf pd2)
                    s.currentRow hd hc (by rw [hlen]; exact hm)
                  exact ⟨ha, by rw [← hlen]; exact hb⟩
              | false =>
                  rw [pageAttempt_mode_retry_empty fetch cfg s e pd2 hfe hcap hmode hr hok]
                  exact ⟨hd, hc⟩
          | error e2 =>
              rw [pageAttempt_mode_retry_err fetch cfg s e e2 hfe hcap hmode hr]
              exact ⟨hd, hc⟩
        · by_cases hab : isAbortedErr e
          · rw [pageAttempt_aborted fetch cfg s e hfe hcap hmode hab]
            exact ⟨hd, hc⟩
          · rw [pageAttempt_fatal fetch cfg s e hfe hcap hmode hab]
            exact ⟨hd, hc⟩

/-- The whole loop preserves the C2 invariant. -/
theorem extractLoop_rowInvariant (fetch : Fetch Nat) (cfg : LoopCfg) (r0 : Nat)
    (hfetch : returnsConsecutiveRows cfg.totalRows fetch) :
    ∀ (fuel : Nat) (s : LoopState Nat), rowInvariant r0 s →
      rowInvariant r0 (extractLoop fetch cfg fuel s).state := by
  intro fuel
  induction fuel with
  | zero => intro s h; exact h
  | succ n ih =>
      intro s h
      rw [extractLoop]
      split
      · have hstep := pageAttempt_rowInvariant fetch cfg r0 s hfetch h
        cases hpa : pageAttempt fetch cfg s with
        | next s' =>
            rw [hpa] at hstep
            exact ih s' hstep
        | brk s' =>
            rw [hpa] at hstep
            exact hstep
      · exact h

/-- Page-size-5 options for the truncation scenario. -/
def optsFive : Options := { pageSize := 5 }

/-- C2 counterexample: with the truncating oracle (`fetchTrunc`: first
call returns rows 0-2 of the 5 requested, second call returns rows 5-9),
the extraction completes normally but the assembled data is
`[0,1,2,5,6,7,8,9]`: rows 3 and 4 — between the start row and the last
assembled row — are missing.  The row sequence has a gap. -/
theorem C2_counterexample :
    extractPivotData fetchTrunc hcFatal optsFive 3
      = some { data := [0, 1, 2, 5, 6, 7, 8, 9]
               metadata := { dimensions := [⟨"Dim1"⟩], measures := [⟨"Meas1"⟩]
                             totalRows := 10, totalColumns := 2, extractedRows := 8
                             pageSize := 5, pagesProcessed := 2 } } ∧
    (0 : Nat) ∈ [0, 1, 2, 5, 6, 7, 8, 9] ∧
    (9 : Nat) ∈ [0, 1, 2, 5, 6, 7, 8, 9] ∧
    (3 : Nat) ∉ [0, 1, 2, 5, 6, 7, 8, 9] := by
  decide

/-- C2 amended: *provided every successful fetch returns exactly the
consecutive block of original rows starting at its window top (truncated
only at the data boundary)*, the assembled rows of every terminating
extraction — complete, capped or aborted — are exactly
`range' startRow len`: strictly increasing, no duplicates, no gaps.
Without that assumption server truncation produces gaps
(`C2_counterexample`), because the main success path advances the cursor
by the requested height. -/
theorem C2_rows_strictly_increasing_no_gaps (fetch : Fetch Nat) (hc : HyperCube)
    (opts : Options) (fuel : Nat) (res : ExtractionResult Nat)
    (hfetch : returnsConsecutiveRows hc.qSize.qcy fetch)
    (hres : extractPivotData fetch hc opts fuel = some res) :
    res.data = List.range' opts.startRow res.data.length ∧
    res.data.Pairwise (· < ·) := by
  unfold extractPivotData at hres
  cases hl : extractLoop fetch (extractCfg hc opts) fuel (initState Nat opts) with
  | done s =>
      rw [hl] at hres
      have hinv := extractLoop_rowInvariant fetch (extractCfg hc opts) opts.startRow
        hfetch fuel (initState Nat opts) ⟨rfl, by simp [initState]⟩
      rw [hl] at hinv
      simp only [LoopResult.state] at hinv
      obtain ⟨h1, _⟩ := hinv
      cases hres
      refine ⟨h1, ?_⟩
      show (s.allData).Pairwise (· < ·)
      rw [h1]
      exact List.pairwise_lt_range' _ _
  | outOfFuel s =>
      rw [hl] at hres
      cases hres

/-- The complete fault-free run of the 10-row cube at page size 3. -/
def resExact : ExtractionResult Nat :=
  { data := List.range' 0 10
    metadata := { dimensions := [⟨"Dim1"⟩], measures := [⟨"Meas1"⟩]
                  totalRows := 10, totalColumns := 2, extractedRows := 10
                  pageSize := 3, pagesProcessed := 4 } }

/-- Witness for C2: a boundary-truncating oracle on the 10-row cube
yields consecutive, strictly increasing rows 0-9. -/
theorem C2_rows_strictly_increasing_witness :
    extractPivotData (fetchExact 10) hcFatal optsFatal 5 = some resExact ∧
    (resExact.data = List.range' optsFatal.startRow resExact.data.length ∧
     resExact.data.Pairwise (· < ·)) := by
  refine ⟨by decide, ?_⟩
  refine C2_rows_strictly_increasing_no_gaps (fetchExact 10) hcFatal optsFatal 5
    resExact ?_ (by decide)
  intro i m w pd h hok
  cases h
  rfl

/-! ## C3 — completeness under a fault-free full-window oracle -/

/-- A fault-free fetch stub: every call resolves with a truthy matrix of
exactly the requested height. -/
def faultFreeFullFetch {R : Type} (fetch : Fetch R) : Prop :=
  ∀ i m w, ∃ pd, fetch i m w = .ok pd ∧ pageOk pd = true ∧
    (matrixOf pd).length = w.qHeight

/-- `fetchFull` is such a stub. -/
theorem fetchFull_faultFree : faultFreeFullFetch fetchFull := by
  intro i m w
  exact ⟨some [⟨some (List.range' w.qTop w.qHeight)⟩], rfl, rfl, by simp [matrixOf]⟩

/-- Under a fault-free full-window oracle the loop finishes: it consumes
all remaining rows in exactly `⌈remaining / pageSize⌉` further pages,
provided the page cap and the fuel allow that many. -/
theorem extractLoop_completes (R : Type) (fetch : Fetch R) (cfg : LoopCfg)
    (hff : faultFreeFullFetch fetch) (hps : 0 < cfg.pageSize) :
    ∀ (fuel : Nat) (s : LoopState R),
      s.allData.length = s.currentRow →
      s.currentRow ≤ cfg.totalRows →
      s.pagesProcessed + ceilDiv (cfg.totalRows - s.currentRow) cfg.pageSize
        ≤ cfg.maxPages →
      ceilDiv (cfg.totalRows - s.currentRow) cfg.pageSize + 1 ≤ fuel →
      (extractLoop fetch cfg fuel s).isDone = true ∧
      (extractLoop fetch cfg fuel s).state.allData.length = cfg.totalRows ∧
      (extractLoop fetch cfg fuel s).state.pagesProcessed
        = s.pagesProcessed + ceilDiv (cfg.totalRows - s.currentRow) cfg.pageSize := by
  intro fuel
  induction fuel with
  | zero => intro s _ _ _ hfuel; omega
  | succ n ih =>
      intro s hlen hle hcap hfuel
      by_cases hlt : s.currentRow < cfg.totalRows
      · have hr : 0 < cfg.totalRows - s.currentRow := by omega
        have hpos := ceilDiv_pos (cfg.totalRows - s.currentRow) cfg.pageSize hps hr
        have hpages : s.pagesProcessed < cfg.maxPages := by omega
        obtain ⟨pd, hfe, hok, hlen2⟩ :=
          hff s.calls.length (attemptMethod cfg) (attemptWindow cfg s)
        have hlen2' : (matrixOf pd).length = rowsToFetch cfg s := hlen2
        have hstep := pageAttempt_ok_true fetch cfg s pd hfe hok
        have hstepceil : ceilDiv (cfg.totalRows - s.currentRow) cfg.pageSize
            = ceilDiv (cfg.totalRows - (s.currentRow + rowsToFetch cfg s))
                cfg.pageSize + 1 := by
          have harg : cfg.totalRows - s.currentRow
                - min cfg.pageSize (cfg.totalRows - s.currentRow)
              = cfg.totalRows - (s.currentRow + rowsToFetch cfg s) := by
            have : rowsToFetch cfg s
                = min cfg.pageSize (cfg.totalRows - s.currentRow) := rfl
            omega
          rw [ceilDiv_step (cfg.totalRows - s.currentRow) cfg.pageSize hps hr, harg]
        have hrtf_le : rowsToFetch cfg s ≤ cfg.totalRows - s.currentRow :=
          Nat.min_le_right _ _
        simp only [extractLoop, if_pos (⟨hlt, hpages⟩ : _ ∧ _), hstep]
        obtain ⟨ha, hb, hpp⟩ := ih
          { allData := s.allData ++ matrixOf pd
            currentRow := s.currentRow + rowsToFetch cfg s
            pagesProcessed := s.pagesProcessed + 1
            calls := s.calls ++ [(attemptMethod cfg, attemptWindow cfg s)] }
          (by simp only [List.length_append, hlen, hlen2'])
          (by simp only []; omega)
          (by simp only []; omega)
          (by simp only []; omega)
        refine ⟨ha, hb, ?_⟩
        rw [hpp]
        simp only []
        omega
      · have hcur : s.currentRow = cfg.totalRows := by omega
        have hzero : ceilDiv (cfg.totalRows - s.currentRow) cfg.pageSize = 0 := by
          rw [hcur, Nat.sub_self]
          exact ceilDiv_zero_left cfg.pageSize hps
        rw [extractLoop, if_neg (by omega : ¬ (s.currentRow < cfg.totalRows ∧
          s.pagesProcessed < cfg.maxPages))]
        exact ⟨rfl, by simp [LoopResult.state, hlen, hcur], by simp [LoopResult.state, hzero]⟩

/-- An 11-row straight cube. -/
def hcEleven : HyperCube :=
  { qDimensionInfo := [⟨"Dim1"⟩], qMeasureInfo := [⟨"Meas1"⟩]
    qSize := { qcy := 11, qcx := 2 }, qMode := "EQ_DATA_MODE_STRAIGHT" }

/-- Options requesting 1 row per page, default cap. -/
def optsOne : Options := { pageSize := 1 }

/-- C3 counterexample: `totalRows = 11`, `pageSize = 1`, a fault-free
full-window oracle, and the *default* `maxPages = 10`: the loop stops at
the page cap with `extractedRows = 10 ≠ 11 = totalRows` and
`pagesProcessed = 10 ≠ 11 = ceil(totalRows / pageSize)`.  The claim's
"for any totalRows and pageSize" fails whenever
`ceil(totalRows / pageSize) > maxPages`. -/
theorem C3_counterexample :
    (extractPivotData fetchFull hcEleven optsOne 11).map
        (fun r => (r.metadata.extractedRows, r.metadata.pagesProcessed))
      = some (10, 10) ∧
    hcEleven.qSize.qcy = 11 ∧
    ceilDiv hcEleven.qSize.qcy optsOne.pageSize = 11 ∧
    (10 : Nat) ≠ 11 := by
  decide

/-- C3 amended: for any `totalRows` and positive `pageSize` *with
`ceil(totalRows / pageSize) ≤ maxPages`* (and `startRow = 0`, enough
fuel), a fault-free oracle returning exactly the requested rows yields
`extractedRows = totalRows` and `pagesProcessed = ceil(totalRows /
pageSize)`. -/
theorem C3_completeness {R : Type} (fetch : Fetch R) (hc : HyperCube) (opts : Options)
    (fuel : Nat) (hff : faultFreeFullFetch fetch) (hps : 0 < opts.pageSize)
    (hstart : opts.startRow = 0)
    (hcap : ceilDiv hc.qSize.qcy opts.pageSize ≤ opts.maxPages)
    (hfuel : ceilDiv hc.qSize.qcy opts.pageSize + 1 ≤ fuel) :
    (extractPivotData fetch hc opts fuel).map
        (fun r => (r.metadata.extractedRows, r.metadata.pagesProcessed))
      = some (hc.qSize.qcy, ceilDiv hc.qSize.qcy opts.pageSize) := by
  have h := extractLoop_completes R fetch (extractCfg hc opts) hff hps fuel
    (initState R opts)
    (by simp [initState, hstart])
    (by simp [initState, hstart])
    (by simpa [initState, extractCfg, hstart] using hcap)
    (by simpa [initState, extractCfg, hstart] using hfuel)
  obtain ⟨ha, hb, hpp⟩ := h
  unfold extractPivotData
  cases hl : extractLoop fetch (extractCfg hc opts) fuel (initState R opts) with
  | done s =>
      rw [hl] at hb hpp
      simp only [LoopResult.state] at hb hpp
      show some (s.allData.length, s.pagesProcessed)
          = some (hc.qSize.qcy, ceilDiv hc.qSize.qcy opts.pageSize)
      rw [hb, hpp]
      simp [initState, extractCfg, hstart]
  | outOfFuel s =>
      rw [hl] at ha
      cases ha

/-- Witness for C3: the 10-row cube at page size 3 completes in
`ceil(10/3) = 4` pages with all 10 rows. -/
theorem C3_completeness_witness :
    (extractPivotData fetchFull hcFatal optsFatal 5).map
        (fun r => (r.metadata.extractedRows, r.metadata.pagesProcessed))
      = some (10, 4) :=
  C3_completeness fetchFull hcFatal optsFatal 5 fetchFull_faultFree
    (by decide) rfl (by decide) (by decide)

/-! ## C8 — formatter header/summary consistency -/

theorem pushHeader_fold_length (t : String) (l : List FieldInfo) (hs : List Header) :
    (l.foldl (pushHeader t) hs).length = hs.length + l.length := by
  induction l generalizing hs with
  | nil => simp
  | cons x xs ih =>
      rw [List.foldl_cons, ih]
      simp [pushHeader]
      omega

theorem pushHeader_fold_name (t : String) (l : List FieldInfo) (hs : List Header) :
    (l.foldl (pushHeader t) hs).map Header.name
      = hs.map Header.name ++ l.map FieldInfo.qFallbackTitle := by
  induction l generalizing hs with
  | nil => simp
  | cons x xs ih =>
      rw [List.foldl_cons, ih]
      simp [pushHeader]

theorem pushHeader_fold_type (t : String) (l : List FieldInfo) (hs : List Header) :
    (l.foldl (pushHeader t) hs).map Header.type
      = hs.map Header.type ++ List.replicate l.length t := by
  induction l generalizing hs with
  | nil => simp
  | cons x xs ih =>
      rw [List.foldl_cons, ih]
      simp [pushHeader, List.replicate_succ]

theorem pushHeader_fold_index (t : String) (l : List FieldInfo) (hs : List Header) :
    (l.foldl (pushHeader t) hs).map Header.index
      = hs.map Header.index ++ List.range' hs.length l.length := by
  induction l generalizing hs with
  | nil => simp
  | cons x xs ih =>
      rw [List.foldl_cons, ih]
      simp [pushHeader, List.range'_succ]

/-- C8: for every extraction result, the formatter's headers are the
dimension descriptors followed by the measure descriptors in that fixed
order (witnessed by the name and column-type projections), their
positional indices are consecutive `0, 1, …`, and
`summary.totalColumns = headers.length = #dimensions + #measures`. -/
theorem C8_formatter_consistency (ed : ExtractionResult (List Cell)) :
    (formatPivotData ed).summary.totalColumns = (formatPivotData ed).headers.length ∧
    (formatPivotData ed).headers.length
      = ed.metadata.dimensions.length + ed.metadata.measures.length ∧
    (formatPivotData ed).headers.map Header.name
      = ed.metadata.dimensions.map FieldInfo.qFallbackTitle
        ++ ed.metadata.measures.map FieldInfo.qFallbackTitle ∧
    (formatPivotData ed).headers.map Header.type
      = List.replicate ed.metadata.dimensions.length "dimension"
        ++ List.replicate ed.metadata.measures.length "measure" ∧
    (formatPivotData ed).headers.map Header.index
      = List.range (formatPivotData ed).headers.length := by
  have hh : (formatPivotData ed).headers
      = ed.metadata.measures.foldl (pushHeader "measure")
          (ed.metadata.dimensions.foldl (pushHeader "dimension") []) := rfl
  have hlen : (formatPivotData ed).headers.length
      = ed.metadata.dimensions.length + ed.metadata.measures.length := by
    rw [hh, pushHeader_fold_length, pushHeader_fold_length]
    simp
  refine ⟨rfl, hlen, ?_, ?_, ?_⟩
  · rw [hh, pushHeader_fold_name, pushHeader_fold_name]
    simp
  · rw [hh, pushHeader_fold_type, pushHeader_fold_type]
    simp
  · rw [hlen, hh, pushHeader_fold_index, pushHeader_fold_index,
        pushHeader_fold_length, List.range_eq_range']
    simpa using
      range'_split 0 ed.metadata.dimensions.length ed.metadata.measures.length
